import Mathlib

/-!
Verification of the Git_Code_Analyzer repository-to-summary pipeline.

The development shallowly embeds the Python sources `scrapper.py` and
`llm_summarizer.py`.  External collaborators (the `magic` MIME sniffer, the
Hugging Face tokenizer/model, `hashlib.md5`, the filesystem and the on-disk
cache) are modelled as explicit parameters carried by `SummModel` and `Env`;
everything written by the repository itself is translated function by
function.  Python dictionaries are modelled as association lists over a small
value type so that key-absence (`KeyError`) is distinguishable from a key
mapped to `None`.
-/

set_option autoImplicit false

namespace GitAnalyzer

/-- Python values as they occur in the result records of the pipeline. -/
inductive PyVal where
  | vNone
  | vStr (s : String)
  | vNat (n : Nat)
  | vBool (b : Bool)
  deriving DecidableEq, Repr

/-- A Python dict as produced by `get_file_summary` / `analyze_repository`:
an insertion-ordered association list. -/
abbrev Rec := List (String × PyVal)

/-- Dictionary read, `d[k]`: `none` models a raised `KeyError`. -/
def dget : Rec → String → Option PyVal
  | [], _ => none
  | (k2, v) :: rest, k => if k2 = k then some v else dget rest k

/-- Dictionary write, `d[k] = v`: replaces the first binding of `k` in place,
appends a new binding otherwise (Python insertion order). -/
def dset : Rec → String → PyVal → Rec
  | [], k, v => [(k, v)]
  | (k2, v2) :: rest, k, v =>
    if k2 = k then (k2, v) :: rest else (k2, v2) :: dset rest k v

/-- Python truthiness for the values appearing in the records. -/
def pyTruthy : PyVal → Bool
  | .vNone => false
  | .vStr s => !(s == "")
  | .vNat n => !(n == 0)
  | .vBool b => b

theorem dget_dset_self (r : Rec) (k : String) (v : PyVal) :
    dget (dset r k v) k = some v := by
  induction r with
  | nil => simp [dget, dset]
  | cons p rest ih =>
    obtain ⟨k1, v1⟩ := p
    by_cases h : k1 = k
    · simp [dget, dset, h]
    · simp [dget, dset, h, ih]

theorem dget_dset_ne (r : Rec) (k k2 : String) (v : PyVal) (h : k ≠ k2) :
    dget (dset r k v) k2 = dget r k2 := by
  induction r with
  | nil => simp [dget, dset, h]
  | cons p rest ih =>
    obtain ⟨k1, v1⟩ := p
    by_cases h2 : k1 = k
    · subst h2
      simp [dget, dset, h, Ne.symm h]
    · by_cases h3 : k1 = k2 <;> simp [dget, dset, h2, h3, ih, Ne.symm h]

/-! ## Python string primitives

The helpers below model the exact Python string operations used by the
sources (`str.strip`, `str.split`, `str.split('\n')`, `str.startswith`,
`str.join`, `str.replace`, `os.path.splitext`, `pathlib.PurePath.suffix`).
They are written structurally so that concrete witnesses evaluate in the
kernel. -/

/-- The characters Python `str.strip()` / `str.split()` treat as whitespace. -/
def pyIsSpace (c : Char) : Bool :=
  c = ' ' || c = '\t' || c = '\n' || c = '\r' || c = '\x0b' || c = '\x0c'

/-- Python `s.strip()`. -/
def pyStrip (s : String) : String :=
  String.mk (((s.data.dropWhile pyIsSpace).reverse.dropWhile pyIsSpace).reverse)

/-- Python `s.startswith(pre)`. -/
def pyStartsWith (s pre : String) : Bool :=
  pre.data.isPrefixOf s.data

/-- Python `sep.join(parts)`. -/
def pyJoin (sep : String) : List String → String
  | [] => ""
  | [x] => x
  | x :: y :: rest => x ++ sep ++ pyJoin sep (y :: rest)

/-- Helper for `pyLines`: accumulates the current line in reverse. -/
def pyLinesAux : List Char → List Char → List String
  | [], cur => [String.mk cur.reverse]
  | c :: cs, cur =>
    if c = '\n' then String.mk cur.reverse :: pyLinesAux cs []
    else pyLinesAux cs (c :: cur)

/-- Python `s.split('\n')`; in particular `"".split('\n') == [""]`. -/
def pyLines (s : String) : List String := pyLinesAux s.data []

/-- Helper for `pyWords`: accumulates the current word in reverse. -/
def pyWordsAux : List Char → List Char → List String
  | [], cur => if cur = [] then [] else [String.mk cur.reverse]
  | c :: cs, cur =>
    if pyIsSpace c then
      if cur = [] then pyWordsAux cs []
      else String.mk cur.reverse :: pyWordsAux cs []
    else pyWordsAux cs (c :: cur)

/-- Python `s.split()` with no argument: whitespace runs, no empty pieces. -/
def pyWords (s : String) : List String := pyWordsAux s.data []

/-- Index of the last occurrence of `t`, if any. -/
def lastIdxOf (t : Char) : List Char → Option Nat
  | [] => none
  | c :: cs =>
    match lastIdxOf t cs with
    | some k => some (k + 1)
    | none => if c = t then some 0 else none

/-- Extension part of `os.path.splitext(name)` for a basename: the suffix
from the last dot, ignoring any leading dots (`splitext('.bashrc') == ('.bashrc', '')`). -/
def pySplitextExt (name : String) : String :=
  let lead := name.data.takeWhile (fun c => c = '.')
  let rest := name.data.drop lead.length
  match lastIdxOf '.' rest with
  | none => ""
  | some k => String.mk (rest.drop k)

/-- `pathlib.PurePath(name).suffix` for a basename: nonempty only when the
last dot is neither the first nor the last character. -/
def pySuffix (name : String) : String :=
  match lastIdxOf '.' name.data with
  | none => ""
  | some i =>
    if 0 < i ∧ i + 1 < name.data.length then String.mk (name.data.drop i) else ""

/-- Python `s.lower()` over the ASCII range exercised by the extension
tables. -/
def pyCharLower (c : Char) : Char :=
  if 'A' ≤ c ∧ c ≤ 'Z' then Char.ofNat (c.toNat + 32) else c

def pyLower (s : String) : String := String.mk (s.data.map pyCharLower)

/-- Python `s.replace(pat, repl)` (all occurrences, left to right); the fuel
argument bounds the scan and is instantiated with the string length. -/
def pyReplaceAux (pat repl : List Char) : Nat → List Char → List Char
  | 0, l => l
  | _ + 1, [] => []
  | fuel + 1, c :: cs =>
    if pat.isPrefixOf (c :: cs) then
      repl ++ pyReplaceAux pat repl fuel ((c :: cs).drop pat.length)
    else c :: pyReplaceAux pat repl fuel cs

def pyReplace (s pat repl : String) : String :=
  String.mk (pyReplaceAux pat.data repl.data s.data.length s.data)

/-- Python `s.split(sep)` for a nonempty separator (used with `'\n\n'`);
fuel is instantiated with the string length. -/
def pySplitOnAux (sep : List Char) : Nat → List Char → List Char → List (List Char)
  | 0, l, cur => [cur.reverse ++ l]
  | fuel + 1, l, cur =>
    match l with
    | [] => [cur.reverse]
    | c :: cs =>
      if sep.isPrefixOf (c :: cs) then
        cur.reverse :: pySplitOnAux sep fuel ((c :: cs).drop sep.length) []
      else pySplitOnAux sep fuel cs (c :: cur)

def pySplitOn (s sep : String) : List String :=
  (pySplitOnAux sep.data s.data.length s.data []).map String.mk

/-! ## LLM_Summarize (llm_summarizer.py)

The Hugging Face collaborators are an environment: `tok w` models
`len(self.tokenizer.encode(w))` and the two pipeline configurations used by
the code (`max_length=46` per chunk, `max_length=500` for the repository
pass) are `shortCall` / `longCall`, returning `Except` so that a raised
model exception is observable. -/

structure SummModel where
  tok : String → Nat
  shortCall : String → Except String String
  longCall : String → Except String String

/-- First step of `_preprocess_code`: `re.sub(r'\n\s*\n', '\n', code)`.
On seeing `'\n'`, the regex greedily takes whitespace and backtracks to the
last `'\n'` of that run; scanning resumes after the match.  Fuel is
instantiated with the string length (each step consumes at least one
character). -/
def collapseAux : Nat → List Char → List Char
  | 0, l => l
  | _ + 1, [] => []
  | fuel + 1, c :: cs =>
    if c = '\n' then
      let ws := cs.takeWhile pyIsSpace
      match lastIdxOf '\n' ws with
      | some k => '\n' :: collapseAux fuel (cs.drop (k + 1))
      | none => c :: collapseAux fuel cs
    else c :: collapseAux fuel cs

def collapse_blank (s : String) : String :=
  String.mk (collapseAux s.data.length s.data)

/-- Per-line comment stripping: cut the line at the first occurrence of the
marker (models `re.sub(r'#.*$', '', code, flags=re.MULTILINE)` and the `//`
variant). -/
def cutAux (marker : List Char) : List Char → List Char
  | [] => []
  | c :: cs => if marker.isPrefixOf (c :: cs) then [] else c :: cutAux marker cs

def stripLineComments (marker : String) (s : String) : String :=
  pyJoin "\n" ((pyLines s).map fun l => String.mk (cutAux marker.data l.data))

/-- Scan for the next `*/` and return the remainder after it. -/
def findClose : List Char → Option (List Char)
  | [] => none
  | [_] => none
  | a :: b :: rest =>
    if a = '*' ∧ b = '/' then some rest else findClose (b :: rest)

/-- Models `re.sub(r'/\*.*?\*/', '', code, flags=re.DOTALL)`: leftmost
`/*`, shortest closing `*/` (if the first `/*` is unclosed no later match
exists either).  Fuel is instantiated with the string length. -/
def stripBlockAux : Nat → List Char → List Char
  | 0, l => l
  | _ + 1, [] => []
  | fuel + 1, c :: cs =>
    match c, cs with
    | '/', '*' :: rest =>
      (match findClose rest with
       | some r => stripBlockAux fuel r
       | none => c :: cs)
    | _, _ => c :: stripBlockAux fuel cs

/-- `LLM_Summarize._preprocess_code`: collapse blank runs, strip `#` and
`//` line comments, strip `/* ... */` block comments, drop blank lines. -/
def preprocess_code (code : String) : String :=
  let c1 := collapse_blank code
  let c2 := stripLineComments "#" c1
  let c3 := stripLineComments "//" c2
  let c4 := String.mk (stripBlockAux c3.data.length c3.data)
  pyJoin "\n" ((pyLines c4).filter fun l => !(pyStrip l == ""))

/-- The greedy chunk loop of `_chunk_text`, producing joined chunk strings
exactly as the Python code appends `' '.join(current_chunk)`. -/
def chunkTextLoop (tok : String → Nat) (maxLength : Nat) :
    List String → List String → Nat → List String → List String
  | [], cur, _, acc => if cur = [] then acc else acc ++ [pyJoin " " cur]
  | w :: ws, cur, len, acc =>
    if len + tok w > maxLength then
      chunkTextLoop tok maxLength ws [w] (tok w) (acc ++ [pyJoin " " cur])
    else chunkTextLoop tok maxLength ws (cur ++ [w]) (len + tok w) acc

/-- `LLM_Summarize._chunk_text(text, max_length=1000)`. -/
def chunk_text (tok : String → Nat) (text : String) (maxLength : Nat) : List String :=
  chunkTextLoop tok maxLength (pyWords text) [] 0 []

/-- The same loop at the word level (chunks as word lists, not yet joined);
used to state and prove the chunking properties. -/
def chunkWordsLoop (tok : String → Nat) (maxLength : Nat) :
    List String → List String → Nat → List (List String) → List (List String)
  | [], cur, _, acc => if cur = [] then acc else acc ++ [cur]
  | w :: ws, cur, len, acc =>
    if len + tok w > maxLength then
      chunkWordsLoop tok maxLength ws [w] (tok w) (acc ++ [cur])
    else chunkWordsLoop tok maxLength ws (cur ++ [w]) (len + tok w) acc

def chunkWords (tok : String → Nat) (maxLength : Nat) (text : String) :
    List (List String) :=
  chunkWordsLoop tok maxLength (pyWords text) [] 0 []

/-- The running token-count estimate of a chunk: the sum of the per-word
`tokenizer.encode` lengths, exactly the quantity `current_length` tracks. -/
def chunkEstimate (tok : String → Nat) (c : List String) : Nat :=
  (c.map tok).sum

/-- The per-chunk model-call loop of `summarize_code`; the second component
counts pipeline invocations (the loop stops at the first raised exception). -/
def runChunks (call : String → Except String String) :
    List String → Except String (List String) × Nat
  | [] => (.ok [], 0)
  | c :: cs =>
    match call c with
    | .error e => (.error e, 1)
    | .ok s =>
      match runChunks call cs with
      | (.ok ss, k) => (.ok (s :: ss), k + 1)
      | (.error e, k) => (.error e, k + 1)

/-- `LLM_Summarize.summarize_code`: the string result together with the
number of model invocations.  The `try/except` of the source catches any
model exception and substitutes the sentinel. -/
def summarize_code (m : SummModel) (code : String) : String × Nat :=
  if pyStrip code = "" then ("Empty file", 0)
  else
    let code2 := preprocess_code code
    if (pyLines code2).length ≤ 1 then ("Single line file - skipping summary", 0)
    else
      match runChunks m.shortCall (chunk_text m.tok code2 1000) with
      | (.ok ss, k) => (pyJoin " " ss, k)
      | (.error _, k) => ("Error generating summary", k)

/-- The filter `if summary and summary != "Error generating summary"`. -/
def isValidSummary (s : String) : Bool :=
  !(s == "") && !(s == "Error generating summary")

/-- The non-error, non-empty per-file summaries collected by
`summarize_repo` before the final joined call. -/
def validSummaries (m : SummModel) (code_list : List String) : List String :=
  (code_list.map fun c => (summarize_code m c).1).filter isValidSummary

/-- `LLM_Summarize._format_as_html`. -/
def formatParagraph (i : Nat) (para : String) : String :=
  if i = 0 then "<h1>" ++ para ++ "</h1>"
  else
    let p1 := pyReplace para "Project" "<strong>Project</strong>"
    let p2 := pyReplace p1 "Features" "<strong>Features</strong>"
    let p3 := pyReplace p2 "Technologies" "<strong>Technologies</strong>"
    let p4 := pyReplace p3 "Architecture" "<strong>Architecture</strong>"
    let p5 := pyReplace p4 "Components" "<strong>Components</strong>"
    "<p>" ++ p5 ++ "</p>"

def htmlWrapperHead : String :=
  "\n        <div style=\"font-family: Arial, sans-serif; line-height: 1.6; max-width: 800px; margin: 0 auto; padding: 20px;\">\n            <style>\n                h1 \x7b color: #2c3e50; margin-bottom: 20px; \x7d\n                p \x7b color: #34495e; margin-bottom: 15px; \x7d\n                strong \x7b color: #2980b9; \x7d\n            </style>\n            "

def htmlWrapperTail : String := "\n        </div>\n        "

def format_as_html (text : String) : String :=
  let paragraphs := pySplitOn text "\n\n"
  let formatted := paragraphs.enum.map fun p => formatParagraph p.1 p.2
  htmlWrapperHead ++ pyJoin "" formatted ++ htmlWrapperTail

/-- Output of `summarize_repo`, instrumented: the returned string, the list
of arguments passed to the long-bound pipeline call, and the number of
short-bound model invocations made while re-summarizing each file. -/
structure RepoOut where
  result : String
  longArgs : List String
  shortCalls : Nat
  deriving DecidableEq, Repr

/-- `LLM_Summarize.summarize_repo`: per-file summaries via
`summarize_code`, filter, double-newline join, one long-bound call, HTML
formatting; any exception of the long call is caught and converted. -/
def summarize_repo (m : SummModel) (code_list : List String) : RepoOut :=
  let shortCalls := (code_list.map fun c => (summarize_code m c).2).sum
  let file_summaries := validSummaries m code_list
  if file_summaries = [] then
    ⟨"<p>No valid code files found to summarize.</p>", [], shortCalls⟩
  else
    let combined := pyJoin "\n\n" file_summaries
    match m.longCall combined with
    | .ok final => ⟨format_as_html final, [combined], shortCalls⟩
    | .error e =>
      ⟨"<p>Error generating repository summary: " ++ e ++ "</p>", [combined], shortCalls⟩

/-! ## GitHubScraper (scrapper.py)

A file of the cloned working tree is modelled with the observations the
scraper makes of it: its `Path(...).parts`, the MIME type `magic` reports
(`get_file_type` already converts sniffing errors to
`application/octet-stream`, so it is total), the `os.path.getsize` result
during the walk (`none` models a raised `OSError`, which `should_skip_file`
turns into a skip), the `os.stat` result during analysis (an `Except`,
whose error is the `str(e)` captured into the record), and the text content
as read with `errors='ignore'`. -/

structure SrcFile where
  relpath : String
  parts : List String
  mime : String
  getsizeRes : Option Nat
  statRes : Except String Nat
  content : String

/-- The basename of the file (last path component). -/
def SrcFile.baseName (f : SrcFile) : String := f.parts.getLastD ""

/-- `GitHubScraper.is_text_file` (via `get_file_type`): text MIME or JSON/XML. -/
def is_text_file (mime : String) : Bool :=
  pyStartsWith mime "text/" || mime == "application/json" || mime == "application/xml"

def skip_dirs : List String :=
  [".git", "node_modules", "__pycache__", "venv", "env", "dist", "build",
   "target", ".idea", ".vscode", "coverage", "docs", "tests", "test"]

def skip_extensions : List String :=
  [".min.js", ".min.css", ".map", ".lock", ".log", ".sqlite", ".db",
   ".pyc", ".pyo", ".pyd", ".so", ".dll", ".dylib"]

/-- Check 1 of `should_skip_file`: any path segment starting with `'.'`. -/
def hiddenPath (f : SrcFile) : Bool :=
  f.parts.any fun part => pyStartsWith part "."

/-- Check 3 of `should_skip_file`: a denylisted directory name among the
path segments. -/
def inSkipDirs (f : SrcFile) : Bool :=
  skip_dirs.any fun d => f.parts.contains d

/-- Check 4 of `should_skip_file`: `os.path.getsize` over 100 KiB, with a
raised error also causing a skip (the `except` branch returns True). -/
def oversize (f : SrcFile) : Bool :=
  match f.getsizeRes with
  | none => true
  | some n => decide (n > 100 * 1024)

/-- Check 5 of `should_skip_file`: `Path(file_path).suffix.lower()` in the
extension denylist. -/
def deniedExt (f : SrcFile) : Bool :=
  skip_extensions.contains (pyLower (pySuffix f.baseName))

/-- `GitHubScraper.should_skip_file`, with the checks in source order:
hidden segments, then the content-sniffing `is_text_file` test, then the
directory denylist, the size ceiling, and the extension denylist. -/
def should_skip_file (f : SrcFile) : Bool :=
  if hiddenPath f then true
  else if !(is_text_file f.mime) then true
  else if inSkipDirs f then true
  else if oversize f then true
  else if deniedExt f then true
  else false

/-- Whether evaluating `should_skip_file` invokes the MIME sniffer
(`self.is_text_file`, hence `magic.from_file`, which opens the file): in
the source this happens whenever the hidden-segment check falls through. -/
def should_skip_sniffs (f : SrcFile) : Bool := !(hiddenPath f)

/-- The comment-leader tokens of the LOC heuristic. -/
def comment_leaders : List String := ["#", "//", "/*", "*", "*/"]

/-- One line counts toward LOC when its strip is nonempty and does not
start with a comment leader. -/
def isCodeLine (l : String) : Bool :=
  !(pyStrip l == "") && !(comment_leaders.any fun p => pyStartsWith (pyStrip l) p)

/-- `summary['loc']`: lines of code of the split content. -/
def countLoc (lines : List String) : Nat := (lines.filter isCodeLine).length

/-- The extension-to-language chain of `get_file_summary` (fixed mapping,
`Unknown` fallback). -/
def detect_language (ext : String) : String :=
  if ext = ".py" then "Python"
  else if ext = ".js" ∨ ext = ".jsx" then "JavaScript"
  else if ext = ".ts" ∨ ext = ".tsx" then "TypeScript"
  else if ext = ".java" then "Java"
  else if ext = ".cpp" ∨ ext = ".cc" ∨ ext = ".cxx" then "C++"
  else if ext = ".c" then "C"
  else if ext = ".go" then "Go"
  else if ext = ".rb" then "Ruby"
  else if ext = ".html" ∨ ext = ".htm" then "HTML"
  else if ext = ".css" then "CSS"
  else if ext = ".md" then "Markdown"
  else if ext = ".json" then "JSON"
  else if ext = ".xml" then "XML"
  else if ext = ".yaml" ∨ ext = ".yml" then "YAML"
  else "Unknown"

/-- Instrumentation counters: short-bound summarizer calls, long-bound
summarizer calls, and file-content reads. -/
structure Counters where
  shortCalls : Nat
  longCalls : Nat
  fileReads : Nat
  deriving DecidableEq, Repr

def Counters.zero : Counters := ⟨0, 0, 0⟩

def Counters.add (a b : Counters) : Counters :=
  ⟨a.shortCalls + b.shortCalls, a.longCalls + b.longCalls, a.fileReads + b.fileReads⟩

/-- `GitHubScraper.get_file_summary`: builds the per-file record.  A raised
`os.stat` exception is caught by the outer `try` and yields the two-key
error record; otherwise the record starts with path/size/type/is_text and
`summary: None`, and the text branch applies the short-file sentinel, the
LOC gate for summarization, and the language tag, in source order. -/
def get_file_summary (m : SummModel) (f : SrcFile) : Rec × Counters :=
  match f.statRes with
  | .error e => ([("path", PyVal.vStr f.relpath), ("error", PyVal.vStr e)], Counters.zero)
  | .ok file_size =>
    let base : Rec :=
      [("path", PyVal.vStr f.relpath), ("size", PyVal.vNat file_size),
       ("type", PyVal.vStr f.mime), ("is_text", PyVal.vBool (is_text_file f.mime)),
       ("summary", PyVal.vNone)]
    if is_text_file f.mime then
      let lines := pyLines f.content
      if lines.length ≤ 3 then
        (dset base "summary" (PyVal.vStr "File too short - skipping summary"), ⟨0, 0, 1⟩)
      else
        let withLoc := dset base "loc" (PyVal.vNat (countLoc lines))
        let step :=
          if countLoc lines > 5 then
            let sc := summarize_code m f.content
            (dset withLoc "summary" (PyVal.vStr sc.1), sc.2)
          else (withLoc, 0)
        let ext := pyLower (pySplitextExt f.baseName)
        (dset step.1 "language" (PyVal.vStr (detect_language ext)), ⟨step.2, 0, 1⟩)
    else (base, Counters.zero)

/-- The on-disk cache as seen through `get_cached_summaries`: an entry can
be absent, unreadable/unparseable (any exception is swallowed and treated
as a miss), or a stored `(summaries, total_files)` pair. -/
inductive CacheView where
  | absent
  | corrupt
  | entry (summaries : List Rec) (total : Nat)

/-- The environment of one `GitHubScraper` run: the `hashlib.md5`
hex-digest function, the cache directory contents keyed by cache key,
whether `clone_repository` has set `repo_path`, the files `os.walk`
enumerates under it, and the summarizer. -/
structure Env where
  md5hex : String → String
  cache : String → CacheView
  cloned : Bool
  files : List SrcFile
  model : SummModel

/-- `GitHubScraper.get_cache_key`: the md5 hex digest of the URL string;
no other state of the scraper is consulted. -/
def get_cache_key (md5hex : String → String) (repo_url : String) : String :=
  md5hex repo_url

/-- `GitHubScraper.get_cached_summaries`: look up the fingerprinted file;
a missing or unparseable entry is a silent miss. -/
def get_cached_summaries (e : Env) (repo_url : String) : Option (List Rec × Nat) :=
  match e.cache (get_cache_key e.md5hex repo_url) with
  | .entry s t => some (s, t)
  | _ => none

/-- `GitHubScraper.get_all_files`: the enumerated files surviving
`should_skip_file`. -/
def get_all_files (e : Env) : List SrcFile :=
  e.files.filter fun f => !(should_skip_file f)

/-- The per-file loop of `analyze_repository`.  After appending the record
the source evaluates `summary['is_text']`; on the two-key error record this
key is absent, so a `KeyError` is raised (and the outer handler re-raises).
A text, error-free record contributes the file content (read again) to
`code_contents`. -/
def analyzeLoop (m : SummModel) : List SrcFile → Except String (List Rec × List String) × Counters
  | [] => (.ok ([], []), Counters.zero)
  | f :: fs =>
    let rc := get_file_summary m f
    match dget rc.1 "is_text" with
    | none => (.error "KeyError: is_text", rc.2)
    | some v =>
      let contrib := pyTruthy v && !(pyTruthy ((dget rc.1 "error").getD PyVal.vNone))
      let extra : Counters := if contrib then ⟨0, 0, 1⟩ else Counters.zero
      match analyzeLoop m fs with
      | (.ok (rs, cs), c2) =>
        (.ok (rc.1 :: rs, (if contrib then [f.content] else []) ++ cs), (rc.2.add extra).add c2)
      | (.error err, c2) => (.error err, (rc.2.add extra).add c2)

/-- Whether a file makes it into `code_contents`: its per-file processing
succeeded and it was classified as text (then its record has no `error`
key). -/
def contributes (f : SrcFile) : Bool :=
  match f.statRes with
  | .ok _ => is_text_file f.mime
  | .error _ => false

/-- The synthetic record appended by `analyze_repository` when
`code_contents` is nonempty. -/
def repoSummaryRecord (e : Env) : Rec :=
  [("path", PyVal.vStr "REPOSITORY_SUMMARY"),
   ("summary", PyVal.vStr (summarize_repo e.model
      (((get_all_files e).filter contributes).map SrcFile.content)).result),
   ("type", PyVal.vStr "html")]

/-- `GitHubScraper.analyze_repository`: cache lookup, precondition check,
enumeration, the per-file loop, the optional repository summary record, and
the returned `(summaries, total_files)`.  `save_to_cache` is best-effort
(its failures are swallowed) and does not affect the returned value, so it
is not modelled.  The second component instruments the run. -/
def analyze_repository (e : Env) (repo_url : String) :
    Except String (List Rec × Nat) × Counters :=
  match get_cached_summaries e repo_url with
  | some (s, t) => (.ok (s, t), Counters.zero)
  | none =>
    if !e.cloned then
      (.error "Repository not cloned. Call clone_repository first.", Counters.zero)
    else
      let files := get_all_files e
      let total := files.length
      if total = 0 then (.ok ([], 0), Counters.zero)
      else
        match analyzeLoop e.model files with
        | (.error err, c) => (.error err, c)
        | (.ok (recs, code_contents), c) =>
          if code_contents.isEmpty then (.ok (recs, total), c)
          else
            let ro := summarize_repo e.model code_contents
            let repoRec : Rec :=
              [("path", PyVal.vStr "REPOSITORY_SUMMARY"),
               ("summary", PyVal.vStr ro.result), ("type", PyVal.vStr "html")]
            (.ok (recs ++ [repoRec], total), c.add ⟨ro.shortCalls, ro.longArgs.length, 0⟩)

/-! ## Properties of the chunker -/

theorem chunkTextLoop_eq_map (tok : String → Nat) (maxL : Nat) (ws : List String) :
    ∀ (cur : List String) (len : Nat) (acc : List (List String)),
      chunkTextLoop tok maxL ws cur len (acc.map (pyJoin " "))
        = (chunkWordsLoop tok maxL ws cur len acc).map (pyJoin " ") := by
  induction ws with
  | nil =>
    intro cur len acc
    by_cases h : cur = [] <;> simp [chunkTextLoop, chunkWordsLoop, h]
  | cons w ws ih =>
    intro cur len acc
    by_cases h : len + tok w > maxL
    · have : acc.map (pyJoin " ") ++ [pyJoin " " cur] = (acc ++ [cur]).map (pyJoin " ") := by
        simp
      simp only [chunkTextLoop, chunkWordsLoop, if_pos h, this, ih]
    · simp only [chunkTextLoop, chunkWordsLoop, if_neg h, ih]

theorem chunk_text_eq_map (tok : String → Nat) (maxL : Nat) (text : String) :
    chunk_text tok text maxL = (chunkWords tok maxL text).map (pyJoin " ") := by
  have h := chunkTextLoop_eq_map tok maxL (pyWords text) [] 0 []
  simpa [chunk_text, chunkWords] using h

theorem chunkWordsLoop_flatten (tok : String → Nat) (maxL : Nat) (ws : List String) :
    ∀ (cur : List String) (len : Nat) (acc : List (List String)),
      (chunkWordsLoop tok maxL ws cur len acc).flatten = acc.flatten ++ cur ++ ws := by
  induction ws with
  | nil =>
    intro cur len acc
    by_cases h : cur = [] <;> simp [chunkWordsLoop, h]
  | cons w ws ih =>
    intro cur len acc
    by_cases h : len + tok w > maxL
    · simp only [chunkWordsLoop, if_pos h, ih]
      simp
    · simp only [chunkWordsLoop, if_neg h, ih]
      simp

/-- Loop invariant for the greedy packer: provided every remaining word fits
the budget by itself, every chunk it ever closes is nonempty, consists of
nonempty words, and its running estimate stays within the budget. -/
theorem chunkWordsLoop_inv (tok : String → Nat) (maxL : Nat) (ws : List String) :
    ∀ (cur : List String) (len : Nat) (acc : List (List String)),
      (∀ w ∈ ws, tok w ≤ maxL ∧ w ≠ "") →
      len = chunkEstimate tok cur →
      len ≤ maxL →
      (∀ w ∈ cur, w ≠ "") →
      (∀ c ∈ acc, chunkEstimate tok c ≤ maxL ∧ c ≠ [] ∧ ∀ w ∈ c, w ≠ "") →
      ∀ c ∈ chunkWordsLoop tok maxL ws cur len acc,
        chunkEstimate tok c ≤ maxL ∧ c ≠ [] ∧ ∀ w ∈ c, w ≠ "" := by
  induction ws with
  | nil =>
    intro cur len acc _ hlen hle hcur hacc c hc
    by_cases h : cur = []
    · simp [chunkWordsLoop, h] at hc
      exact hacc c hc
    · simp [chunkWordsLoop, h] at hc
      rcases hc with hc | hc
      · exact hacc c hc
      · subst hc
        exact ⟨hlen ▸ hle, h, hcur⟩
  | cons w ws ih =>
    intro cur len acc hws hlen hle hcur hacc
    have hw := hws w (List.mem_cons_self w ws)
    have hws2 : ∀ x ∈ ws, tok x ≤ maxL ∧ x ≠ "" :=
      fun x hx => hws x (List.mem_cons_of_mem w hx)
    by_cases h : len + tok w > maxL
    · simp only [chunkWordsLoop, if_pos h]
      have hcurne : cur ≠ [] := by
        intro hnil
        subst hnil
        simp [chunkEstimate] at hlen
        omega
      refine ih [w] (tok w) (acc ++ [cur]) hws2 (by simp [chunkEstimate]) hw.1 ?_ ?_
      · intro x hx
        simp at hx
        subst hx
        exact hw.2
      · intro c hc
        rcases List.mem_append.mp hc with hc | hc
        · exact hacc c hc
        · simp at hc
          subst hc
          exact ⟨hlen ▸ hle, hcurne, hcur⟩
    · simp only [chunkWordsLoop, if_neg h]
      refine ih (cur ++ [w]) (len + tok w) acc hws2 ?_ (by omega) ?_ hacc
      · simp [chunkEstimate, hlen]
      · intro x hx
        rcases List.mem_append.mp hx with hx | hx
        · exact hcur x hx
        · simp at hx
          subst hx
          exact hw.2

theorem pyWordsAux_ne_empty (l : List Char) :
    ∀ (cur : List Char), ∀ w ∈ pyWordsAux l cur, w ≠ "" := by
  induction l with
  | nil =>
    intro cur w hw
    by_cases h : cur = []
    · simp [pyWordsAux, h] at hw
    · simp [pyWordsAux, h] at hw
      subst hw
      intro hcon
      apply h
      have : (String.mk cur.reverse).data = ("" : String).data := by rw [hcon]
      simpa using this
  | cons c cs ih =>
    intro cur w hw
    by_cases h : pyIsSpace c
    · by_cases h2 : cur = []
      · simp [pyWordsAux, h, h2] at hw
        exact ih [] w hw
      · simp [pyWordsAux, h, h2] at hw
        rcases hw with hw | hw
        · subst hw
          intro hcon
          apply h2
          have : (String.mk cur.reverse).data = ("" : String).data := by rw [hcon]
          simpa using this
        · exact ih [] w hw
    · simp [pyWordsAux, h] at hw
      exact ih (c :: cur) w hw

theorem pyWords_ne_empty (s : String) : ∀ w ∈ pyWords s, w ≠ "" :=
  pyWordsAux_ne_empty s.data []

theorem pyJoin_space_ne_empty (c : List String) (hne : c ≠ [])
    (hw : ∀ w ∈ c, w ≠ "") : pyJoin " " c ≠ "" := by
  match c with
  | [] => exact absurd rfl hne
  | [x] =>
    simpa [pyJoin] using hw x (by simp)
  | x :: y :: rest =>
    have hx : x ≠ "" := hw x (by simp)
    intro hcon
    have : (x ++ " " ++ pyJoin " " (y :: rest)).length = 0 := by
      rw [show x ++ " " ++ pyJoin " " (y :: rest) = pyJoin " " (x :: y :: rest) from rfl,
        hcon]
      rfl
    rw [String.length_append, String.length_append] at this
    have h1 : (" " : String).length = 1 := rfl
    rw [h1] at this
    omega

/-- C4, amended.  Unconditionally, flattening the word-level chunks
reproduces the whitespace-delimited word sequence of the input, and the
string chunks are exactly the space-joins of the word-level chunks.  Under
the additional hypothesis that every single word's token estimate fits the
budget — which the source does not guarantee — no chunk's estimate exceeds
the budget and no emitted chunk string is empty. -/
theorem chunking_order_preserving (tok : String → Nat) (maxL : Nat) (text : String) :
    (chunkWords tok maxL text).flatten = pyWords text
    ∧ chunk_text tok text maxL = (chunkWords tok maxL text).map (pyJoin " ")
    ∧ ((∀ w ∈ pyWords text, tok w ≤ maxL) →
        (∀ c ∈ chunkWords tok maxL text, chunkEstimate tok c ≤ maxL)
        ∧ ∀ s ∈ chunk_text tok text maxL, s ≠ "") := by
  refine ⟨?_, chunk_text_eq_map tok maxL text, ?_⟩
  · simpa [chunkWords] using chunkWordsLoop_flatten tok maxL (pyWords text) [] 0 []
  · intro hfit
    have hinv := chunkWordsLoop_inv tok maxL (pyWords text) [] 0 []
      (fun w hw => ⟨hfit w hw, pyWords_ne_empty text w hw⟩)
      (by simp [chunkEstimate]) (by omega) (by simp) (by simp)
    constructor
    · intro c hc
      exact (hinv c hc).1
    · intro s hs
      rw [chunk_text_eq_map] at hs
      rcases List.mem_map.mp hs with ⟨c, hc, rfl⟩
      have h := hinv c hc
      exact pyJoin_space_ne_empty c h.2.1 h.2.2

/-- Witness for `chunking_order_preserving` at a concrete tokenizer, budget
and input. -/
theorem chunking_order_preserving_witness :
    (chunkWords (fun _ => 1) 2 "a b c").flatten = pyWords "a b c"
    ∧ (∀ c ∈ chunkWords (fun _ => 1) 2 "a b c", chunkEstimate (fun _ => 1) c ≤ 2)
    ∧ ∀ s ∈ chunk_text (fun _ => 1) "a b c" 2, s ≠ "" := by
  have h := chunking_order_preserving (fun _ => 1) 2 "a b c"
  have h2 := h.2.2 (by decide)
  exact ⟨h.1, h2.1, h2.2⟩

/-- A tokenizer assigning two tokens to every word (the BART tokenizer's
`encode` emits special tokens around every word, so a count of at least two
is realistic). -/
def twoTok : String → Nat := fun _ => 2

/-- C4, counterexample to the claim as stated: with a positive budget of 1
and the nonempty input `"a"`, the code emits the empty string as a chunk
and a chunk whose token-count estimate (2) exceeds the budget. -/
theorem chunking_counterexample :
    chunk_text twoTok "a" 1 = ["", "a"]
    ∧ ("a" : String) ≠ ""
    ∧ chunkWords twoTok 1 "a" = [[], ["a"]]
    ∧ chunkEstimate twoTok ["a"] > 1 := by
  refine ⟨by decide, by decide, by decide, by decide⟩

/-! ## Properties of the skip filter -/

/-- C2, amended.  The skip decision short-circuits in source order, but the
order is: (a) hidden path segment, then the content-based MIME sniff (a
non-text file is skipped), then (b) the directory denylist, (c) the 100 KiB
size ceiling, (d) the suffix denylist.  Only the hidden-segment check
precedes the sniff, so only hidden paths avoid having their content read;
every non-hidden candidate path is sniffed before the denylist, size and
suffix criteria are consulted. -/
theorem should_skip_order (f : SrcFile) :
    (hiddenPath f = true → should_skip_file f = true ∧ should_skip_sniffs f = false)
    ∧ (hiddenPath f = false → should_skip_sniffs f = true)
    ∧ should_skip_file f
        = (hiddenPath f || !(is_text_file f.mime) || inSkipDirs f || oversize f || deniedExt f) := by
  refine ⟨?_, ?_, ?_⟩
  · intro h
    simp [should_skip_file, should_skip_sniffs, h]
  · intro h
    simp [should_skip_sniffs, h]
  · unfold should_skip_file
    split_ifs with h1 h2 h3 h4 h5 <;> simp_all

/-- Witness for `should_skip_order`: a hidden path is skipped without a
sniff. -/
def hiddenFile : SrcFile :=
  { relpath := ".env", parts := [".env"], mime := "text/plain",
    getsizeRes := some 10, statRes := .ok 10, content := "x" }

theorem should_skip_order_witness :
    should_skip_file hiddenFile = true ∧ should_skip_sniffs hiddenFile = false :=
  (should_skip_order hiddenFile).1 (by decide)

/-- A small text file inside `node_modules`. -/
def vendoredFile : SrcFile :=
  { relpath := "node_modules/x.js", parts := ["node_modules", "x.js"],
    mime := "text/plain", getsizeRes := some 10, statRes := .ok 10, content := "x" }

/-- C2, counterexample to the claim as stated: this path is skipped by the
directory-denylist criterion, is not hidden, and yet the skip evaluation
does sniff its MIME type (reads its content), because the source places the
`is_text_file` check before the denylist, size and suffix checks. -/
theorem should_skip_sniffs_counterexample :
    should_skip_file vendoredFile = true
    ∧ inSkipDirs vendoredFile = true
    ∧ hiddenPath vendoredFile = false
    ∧ should_skip_sniffs vendoredFile = true := by
  refine ⟨by decide, by decide, by decide, by decide⟩

/-! ## Properties of summarize_repo and summarize_code -/

theorem summarize_repo_empty (m : SummModel) (codes : List String)
    (h : validSummaries m codes = []) :
    (summarize_repo m codes).result = "<p>No valid code files found to summarize.</p>"
    ∧ (summarize_repo m codes).longArgs = [] := by
  simp [summarize_repo, h]

theorem summarize_repo_nonempty (m : SummModel) (codes : List String)
    (h : validSummaries m codes ≠ []) :
    (summarize_repo m codes).longArgs = [pyJoin "\n\n" (validSummaries m codes)] := by
  cases hc : m.longCall (pyJoin "\n\n" (validSummaries m codes)) <;>
    simp [summarize_repo, h, hc]

theorem summarize_repo_longArgs_le_one (m : SummModel) (codes : List String) :
    (summarize_repo m codes).longArgs.length ≤ 1 := by
  by_cases h : validSummaries m codes = []
  · rw [(summarize_repo_empty m codes h).2]
    simp
  · rw [summarize_repo_nonempty m codes h]
    simp

theorem get_file_summary_longCalls (m : SummModel) (f : SrcFile) :
    (get_file_summary m f).2.longCalls = 0 := by
  rcases hst : f.statRes with e | n
  · simp [get_file_summary, hst, Counters.zero]
  · simp only [get_file_summary, hst]
    split_ifs <;> rfl

theorem Counters.add_longCalls (a b : Counters) :
    (a.add b).longCalls = a.longCalls + b.longCalls := rfl

theorem analyzeLoop_longCalls (m : SummModel) (fs : List SrcFile) :
    (analyzeLoop m fs).2.longCalls = 0 := by
  induction fs with
  | nil => rfl
  | cons f fs ih =>
    simp only [analyzeLoop]
    cases h : dget (get_file_summary m f).1 "is_text" with
    | none => simpa using get_file_summary_longCalls m f
    | some v =>
      rcases h2 : analyzeLoop m fs with ⟨res, c2⟩
      have hc2 : c2.longCalls = 0 := by
        have := ih
        rw [h2] at this
        exact this
      cases res <;>
        simp [Counters.add_longCalls, hc2, get_file_summary_longCalls m f] <;>
        split <;> rfl

theorem analyze_longCalls_le_one (e : Env) (url : String) :
    (analyze_repository e url).2.longCalls ≤ 1 := by
  unfold analyze_repository
  cases hc : get_cached_summaries e url with
  | some p =>
    obtain ⟨s, t⟩ := p
    simp [Counters.zero]
  | none =>
    by_cases hcl : !e.cloned
    · simp [hcl, Counters.zero]
    · simp only [hcl]
      by_cases hlen : (get_all_files e).length = 0
      · simp [hlen, Counters.zero]
      · simp only [hlen, if_false, if_neg hlen]
        rcases hl : analyzeLoop e.model (get_all_files e) with ⟨res, c⟩
        have hc0 : c.longCalls = 0 := by
          have := analyzeLoop_longCalls e.model (get_all_files e)
          rw [hl] at this
          exact this
        cases res with
        | error err => simp [hc0]
        | ok p =>
          obtain ⟨recs, contents⟩ := p
          by_cases hce : contents.isEmpty
          · simp [hce, hc0]
          · have hle := summarize_repo_longArgs_le_one e.model contents
            simp [hce, Counters.add_longCalls, hc0]
            omega

/-- C3.  Within one `summarize_repo` call the long-output-bound model call
is made at most once; it is made exactly on the double-newline join of the
non-error, non-empty per-file summary strings computed just before, and
only when at least one of them exists; otherwise the fixed notice is
returned verbatim with no long-bound call.  Consequently a whole
`analyze_repository` run performs at most one long-bound call. -/
theorem repo_summarization_once (m : SummModel) (codes : List String)
    (e : Env) (url : String) :
    (summarize_repo m codes).longArgs.length ≤ 1
    ∧ (validSummaries m codes = [] →
        (summarize_repo m codes).result = "<p>No valid code files found to summarize.</p>"
        ∧ (summarize_repo m codes).longArgs = [])
    ∧ (validSummaries m codes ≠ [] →
        (summarize_repo m codes).longArgs = [pyJoin "\n\n" (validSummaries m codes)])
    ∧ (analyze_repository e url).2.longCalls ≤ 1 :=
  ⟨summarize_repo_longArgs_le_one m codes,
   summarize_repo_empty m codes,
   summarize_repo_nonempty m codes,
   analyze_longCalls_le_one e url⟩

/-- A summarizer whose model calls always succeed. -/
def mOk : SummModel :=
  { tok := fun _ => 1, shortCall := fun _ => .ok "S", longCall := fun _ => .ok "L" }

/-- A summarizer whose model calls always raise. -/
def mErr : SummModel :=
  { tok := fun _ => 1, shortCall := fun _ => .error "boom", longCall := fun _ => .error "boom" }

/-- An environment with an empty cache and no clone, used to close the
universally quantified environment of `repo_summarization_once`. -/
def envTrivial : Env :=
  { md5hex := fun _ => "k", cache := fun _ => .absent, cloned := false,
    files := [], model := mOk }

/-- Witness for `repo_summarization_once` at a concrete model and input. -/
theorem repo_summarization_once_witness :
    (summarize_repo mOk ["a\nb"]).longArgs = [pyJoin "\n\n" (validSummaries mOk ["a\nb"])]
    ∧ (summarize_repo mOk ["a\nb"]).longArgs.length ≤ 1
    ∧ (summarize_repo mOk []).result = "<p>No valid code files found to summarize.</p>" := by
  have h1 := repo_summarization_once mOk ["a\nb"] envTrivial "u"
  have h2 := repo_summarization_once mOk [] envTrivial "u"
  exact ⟨h1.2.2.1 (by decide), h1.1, (h2.2.1 (by decide)).1⟩

/-- C9.  A model exception during the per-chunk loop of `summarize_code`
is caught at the call site and turned into the sentinel summary string, and
a model exception during the single long-bound call of `summarize_repo` is
caught and turned into the error-notice string; both functions are total
string-valued functions, so no exception ever propagates to their caller. -/
theorem model_failures_converted (m : SummModel) (code : String)
    (codes : List String) (err : String) :
    (pyStrip code ≠ "" →
      (pyLines (preprocess_code code)).length > 1 →
      (runChunks m.shortCall (chunk_text m.tok (preprocess_code code) 1000)).1 = .error err →
      (summarize_code m code).1 = "Error generating summary")
    ∧ (validSummaries m codes ≠ [] →
      m.longCall (pyJoin "\n\n" (validSummaries m codes)) = .error err →
      (summarize_repo m codes).result
        = "<p>Error generating repository summary: " ++ err ++ "</p>") := by
  constructor
  · intro hne hlines hrun
    rcases hr : runChunks m.shortCall (chunk_text m.tok (preprocess_code code) 1000) with ⟨res, k⟩
    rw [hr] at hrun
    simp only at hrun
    subst hrun
    simp [summarize_code, hne, Nat.not_le.mpr hlines, hr]
  · intro hvalid hlong
    simp [summarize_repo, hvalid, hlong]

/-- Witness for `model_failures_converted`: a raising model on a two-line
file and on a repository whose only valid per-file summary is the
`"Empty file"` sentinel. -/
theorem model_failures_converted_witness :
    (summarize_code mErr "a\nb").1 = "Error generating summary"
    ∧ (summarize_repo mErr [""]).result
        = "<p>Error generating repository summary: boom</p>" := by
  have h := model_failures_converted mErr "a\nb" [""] "boom"
  exact ⟨h.1 (by decide) (by decide) (by rfl), h.2 (by decide) (by rfl)⟩

/-! ## Properties of get_file_summary -/

/-- C7.  A text file whose content splits into 3 or fewer lines is recorded
with the fixed short-file sentinel as its summary and no summarization
model call is made for it. -/
theorem short_file_sentinel (m : SummModel) (f : SrcFile) (n : Nat)
    (hst : f.statRes = .ok n) (ht : is_text_file f.mime = true)
    (hl : (pyLines f.content).length ≤ 3) :
    dget (get_file_summary m f).1 "summary"
      = some (PyVal.vStr "File too short - skipping summary")
    ∧ (get_file_summary m f).2.shortCalls = 0 := by
  simp only [get_file_summary, hst]
  simp only [ht, if_true]
  split_ifs
  exact ⟨dget_dset_self _ _ _, rfl⟩

/-- A four-line Python file with low LOC. -/
def pyFile : SrcFile :=
  { relpath := "main.py", parts := ["repo", "main.py"], mime := "text/x-python",
    getsizeRes := some 40, statRes := .ok 40, content := "a\nb\nc\nd" }

/-- A two-line text file. -/
def shortFile : SrcFile :=
  { relpath := "short.txt", parts := ["repo", "short.txt"], mime := "text/plain",
    getsizeRes := some 4, statRes := .ok 4, content := "a\nb" }

/-- Witness for `short_file_sentinel` on a concrete two-line file. -/
theorem short_file_sentinel_witness :
    dget (get_file_summary mOk shortFile).1 "summary"
      = some (PyVal.vStr "File too short - skipping summary")
    ∧ (get_file_summary mOk shortFile).2.shortCalls = 0 :=
  short_file_sentinel mOk shortFile 4 rfl (by decide) (by decide)

/-- C8.  A text file with more than 3 lines whose LOC heuristic yields at
most 5 keeps the `summary: None` binding of the initial record — neither
the short-file sentinel nor a model output — and no summarization model
call is made for it. -/
theorem low_loc_no_summary (m : SummModel) (f : SrcFile) (n : Nat)
    (hst : f.statRes = .ok n) (ht : is_text_file f.mime = true)
    (hl : 3 < (pyLines f.content).length)
    (hloc : countLoc (pyLines f.content) ≤ 5) :
    dget (get_file_summary m f).1 "summary" = some PyVal.vNone
    ∧ (get_file_summary m f).2.shortCalls = 0 := by
  simp only [get_file_summary, hst]
  simp only [ht, if_true]
  split_ifs with h1 h2
  · omega
  · omega
  · constructor
    · rw [dget_dset_ne _ _ _ _ (by decide), dget_dset_ne _ _ _ _ (by decide)]
      rfl
    · rfl

/-- Witness for `low_loc_no_summary` on a concrete four-line file. -/
theorem low_loc_no_summary_witness :
    dget (get_file_summary mOk pyFile).1 "summary" = some PyVal.vNone
    ∧ (get_file_summary mOk pyFile).2.shortCalls = 0 :=
  low_loc_no_summary mOk pyFile 40 rfl (by decide) (by decide) (by decide)

/-- C6, amended.  When the language tag is assigned it is assigned purely
from the lowercased file-name suffix through the fixed
`detect_language` mapping (with its `"Unknown"` fallback), but the
assignment only happens for files classified as text whose content has
more than 3 lines: a non-text file receives no language tag at all, and
neither does a text file of 3 or fewer lines (the short-file early return
precedes the tagging). -/
theorem language_tagging_scope (m : SummModel) (f : SrcFile) (n : Nat)
    (hst : f.statRes = .ok n) :
    (is_text_file f.mime = true → 3 < (pyLines f.content).length →
      dget (get_file_summary m f).1 "language"
        = some (PyVal.vStr (detect_language (pyLower (pySplitextExt f.baseName)))))
    ∧ (is_text_file f.mime = false →
      dget (get_file_summary m f).1 "language" = none)
    ∧ (is_text_file f.mime = true → (pyLines f.content).length ≤ 3 →
      dget (get_file_summary m f).1 "language" = none) := by
  refine ⟨?_, ?_, ?_⟩
  · intro ht hl
    simp only [get_file_summary, hst]
    simp only [ht, if_true]
    split_ifs with h h2
    · omega
    all_goals exact dget_dset_self _ _ _
  · intro ht
    simp only [get_file_summary, hst]
    simp only [ht, if_false, Bool.false_eq_true]
    rfl
  · intro ht hl
    simp only [get_file_summary, hst]
    simp only [ht, if_true]
    split_ifs
    rw [dget_dset_ne _ _ _ _ (by decide)]
    rfl

/-- Witness for `language_tagging_scope`: the `.py` suffix is tagged
`Python` on a text file with four lines. -/
theorem language_tagging_scope_witness :
    dget (get_file_summary mOk pyFile).1 "language" = some (PyVal.vStr "Python") := by
  have h := (language_tagging_scope mOk pyFile 40 rfl).1 (by decide) (by decide)
  exact h.trans (by decide)

/-- A non-text (binary) file. -/
def binaryFile : SrcFile :=
  { relpath := "logo.png", parts := ["repo", "logo.png"], mime := "image/png",
    getsizeRes := some 10, statRes := .ok 10, content := "" }

/-- C6, counterexample to the claim as stated: a non-text file's record
carries no language tag at all (the tagging code sits inside the
`is_text` branch), contradicting the claimed independence from the
text/non-text decision. -/
theorem language_tag_counterexample :
    is_text_file binaryFile.mime = false
    ∧ dget (get_file_summary mOk binaryFile).1 "language" = none := by
  refine ⟨by decide, by decide⟩

/-! ## Properties of analyze_repository -/

theorem get_file_summary_error_rec (m : SummModel) (f : SrcFile) (err : String)
    (hst : f.statRes = .error err) :
    (get_file_summary m f).1
      = [("path", PyVal.vStr f.relpath), ("error", PyVal.vStr err)] := by
  simp [get_file_summary, hst]

/-- On a successfully processed file the record always binds `is_text` to
the classification result and never binds `error`. -/
theorem get_file_summary_fields (m : SummModel) (f : SrcFile) (n : Nat)
    (hst : f.statRes = .ok n) :
    dget (get_file_summary m f).1 "is_text" = some (PyVal.vBool (is_text_file f.mime))
    ∧ dget (get_file_summary m f).1 "error" = none := by
  simp only [get_file_summary, hst]
  split_ifs <;>
    constructor <;>
    · repeat rw [dget_dset_ne _ _ _ _ (by decide)]
      rfl

theorem contributes_of_ok (f : SrcFile) (n : Nat) (h : f.statRes = .ok n) :
    contributes f = is_text_file f.mime := by
  simp [contributes, h]

/-- When the per-file loop completes, the records are exactly the per-file
records in enumeration order and `code_contents` holds exactly the contents
of the contributing (text, error-free) files. -/
theorem analyzeLoop_ok_shape (m : SummModel) (fs : List SrcFile)
    (recs : List Rec) (contents : List String) (c : Counters)
    (h : analyzeLoop m fs = (.ok (recs, contents), c)) :
    recs = fs.map (fun f => (get_file_summary m f).1)
    ∧ contents = (fs.filter contributes).map SrcFile.content := by
  induction fs generalizing recs contents c with
  | nil =>
    simp only [analyzeLoop, Prod.mk.injEq, Except.ok.injEq] at h
    obtain ⟨⟨h2, h3⟩, -⟩ := h
    simp [← h2, ← h3]
  | cons f fs ih =>
    simp only [analyzeLoop] at h
    rcases hst : f.statRes with err | n
    · rw [get_file_summary_error_rec m f err hst] at h
      simp [dget] at h
    · have hf := get_file_summary_fields m f n hst
      simp only [hf.1, hf.2, Option.getD_none, pyTruthy, Bool.not_false, Bool.and_true] at h
      rcases hl : analyzeLoop m fs with ⟨res, c2⟩
      rw [hl] at h
      cases res with
      | error e2 => simp at h
      | ok p =>
        obtain ⟨rs, cs⟩ := p
        simp only [Except.ok.injEq, Prod.mk.injEq] at h
        obtain ⟨⟨h2, h3⟩, -⟩ := h
        have hih := ih rs cs c2 hl
        constructor
        · rw [← h2, hih.1]
          simp
        · rw [← h3, hih.2, List.filter_cons, contributes_of_ok f n hst]
          by_cases hb : is_text_file f.mime = true <;> simp [hb]

/-- C5.  A parseable cache entry under the URL fingerprint makes
`analyze_repository` return the stored `(summaries, total_files)` pair
unchanged, with zero summarizer calls and zero file reads (in particular it
never touches the working tree, and `analyze_repository` itself contains no
clone operation); and the cache key is computed from the md5 function and
the URL string alone, so any environment with the same hash function —
whatever its files, cache or model — fingerprints the URL identically. -/
theorem cache_hit_short_circuit (e : Env) (url : String) (s : List Rec) (t : Nat)
    (h : e.cache (get_cache_key e.md5hex url) = .entry s t) :
    analyze_repository e url = (.ok (s, t), Counters.zero)
    ∧ ∀ e2 : Env, e2.md5hex = e.md5hex →
        get_cache_key e2.md5hex url = get_cache_key e.md5hex url := by
  constructor
  · simp [analyze_repository, get_cached_summaries, h]
  · intro e2 h2
    rw [get_cache_key, get_cache_key, h2]

/-- A record as it would sit in a stored cache entry. -/
def cachedRec : Rec := [("path", PyVal.vStr "a.py"), ("summary", PyVal.vStr "S")]

/-- An environment whose cache holds an entry for the fingerprint of the
analyzed URL. -/
def envHit : Env :=
  { md5hex := fun u => u ++ "-md5",
    cache := fun k => if k = "https://github.com/u/r-md5" then .entry [cachedRec] 3 else .absent,
    cloned := true, files := [pyFile], model := mOk }

/-- Witness for `cache_hit_short_circuit` on a concrete cached entry. -/
theorem cache_hit_short_circuit_witness :
    analyze_repository envHit "https://github.com/u/r" = (.ok ([cachedRec], 3), Counters.zero) :=
  (cache_hit_short_circuit envHit "https://github.com/u/r" [cachedRec] 3 (by rfl)).1

/-- C10.  On a completed cache-miss analysis: the returned total is the
number of analyzed files (the synthetic record never counts); when some
analyzed file is text and error-free, the summaries list is exactly the
per-file records in order followed by one final record with path
`REPOSITORY_SUMMARY` and type `html`, so its length is the total plus one;
when no analyzed file contributes, the list is exactly the per-file records
with no repository-summary record appended. -/
theorem repo_summary_record_appended (e : Env) (url : String)
    (ss : List Rec) (t : Nat) (c : Counters)
    (hmiss : get_cached_summaries e url = none)
    (hok : analyze_repository e url = (.ok (ss, t), c)) :
    t = (get_all_files e).length
    ∧ ((get_all_files e).any contributes = true →
        ss = (get_all_files e).map (fun f => (get_file_summary e.model f).1)
            ++ [repoSummaryRecord e]
        ∧ dget (repoSummaryRecord e) "path" = some (PyVal.vStr "REPOSITORY_SUMMARY")
        ∧ dget (repoSummaryRecord e) "type" = some (PyVal.vStr "html")
        ∧ ss.length = t + 1)
    ∧ ((get_all_files e).any contributes = false →
        ss = (get_all_files e).map (fun f => (get_file_summary e.model f).1)) := by
  by_cases hcl : (!e.cloned) = true
  · simp only [analyze_repository, hmiss, if_pos hcl] at hok
    simp at hok
  · by_cases hz : (get_all_files e).length = 0
    · simp only [analyze_repository, hmiss, if_neg hcl, if_pos hz,
        Prod.mk.injEq, Except.ok.injEq] at hok
      obtain ⟨⟨h2, h3⟩, -⟩ := hok
      have hfiles : get_all_files e = [] := List.length_eq_zero.mp hz
      refine ⟨by omega, ?_, ?_⟩
      · intro hany
        rw [hfiles] at hany
        simp at hany
      · intro _
        rw [hfiles, ← h2]
        simp
    · rcases hl : analyzeLoop e.model (get_all_files e) with ⟨res, c0⟩
      cases res with
      | error err =>
        simp only [analyze_repository, hmiss, if_neg hcl, if_neg hz, hl] at hok
        simp at hok
      | ok p =>
        obtain ⟨recs, contents⟩ := p
        have hshape := analyzeLoop_ok_shape e.model (get_all_files e) recs contents c0 hl
        simp only [analyze_repository, hmiss, if_neg hcl, if_neg hz, hl] at hok
        by_cases hce : contents.isEmpty = true
        · rw [if_pos hce] at hok
          simp only [Prod.mk.injEq, Except.ok.injEq] at hok
          obtain ⟨⟨h2, h3⟩, -⟩ := hok
          have hcnil : contents = [] := List.isEmpty_iff.mp hce
          have hfilter : (get_all_files e).filter contributes = [] := by
            have hmap := hshape.2
            rw [hcnil] at hmap
            exact List.map_eq_nil_iff.mp hmap.symm
          refine ⟨by omega, ?_, ?_⟩
          · intro hany
            rcases List.any_eq_true.mp hany with ⟨x, hx, hpx⟩
            have := List.filter_eq_nil_iff.mp hfilter x hx
            simp [hpx] at this
          · intro _
            rw [← h2, hshape.1]
        · rw [if_neg hce] at hok
          simp only [Prod.mk.injEq, Except.ok.injEq] at hok
          obtain ⟨⟨h2, h3⟩, -⟩ := hok
          have hcne : contents ≠ [] := by
            intro hnil
            rw [hnil] at hce
            simp at hce
          have hrec : ss = (get_all_files e).map (fun f => (get_file_summary e.model f).1)
              ++ [repoSummaryRecord e] := by
            rw [← h2, hshape.1, repoSummaryRecord, ← hshape.2]
          refine ⟨by omega, ?_, ?_⟩
          · intro _
            refine ⟨hrec, rfl, rfl, ?_⟩
            rw [hrec]
            simp
            omega
          · intro hany
            exfalso
            apply hcne
            rw [hshape.2]
            have : (get_all_files e).filter contributes = [] := by
              apply List.filter_eq_nil_iff.mpr
              intro a ha
              have := List.any_eq_false.mp hany a ha
              simpa using this
            rw [this]
            rfl

/-- A summarizer with succeeding per-chunk calls and a raising long call. -/
def mMixed : SummModel :=
  { tok := fun _ => 1, shortCall := fun _ => .ok "S", longCall := fun _ => .error "boom" }

/-- A cache-miss environment with one analyzed text file. -/
def envMiss : Env :=
  { md5hex := fun _ => "k", cache := fun _ => .absent, cloned := true,
    files := [shortFile], model := mMixed }

/-- The summaries list `analyze_repository` returns for `envMiss`. -/
def ssMiss : List Rec :=
  [[("path", PyVal.vStr "short.txt"), ("size", PyVal.vNat 4),
    ("type", PyVal.vStr "text/plain"), ("is_text", PyVal.vBool true),
    ("summary", PyVal.vStr "File too short - skipping summary")],
   [("path", PyVal.vStr "REPOSITORY_SUMMARY"),
    ("summary", PyVal.vStr "<p>Error generating repository summary: boom</p>"),
    ("type", PyVal.vStr "html")]]

/-- Witness for `repo_summary_record_appended` on a concrete one-file
repository. -/
theorem repo_summary_record_appended_witness :
    ssMiss = (get_all_files envMiss).map (fun f => (get_file_summary envMiss.model f).1)
        ++ [repoSummaryRecord envMiss]
    ∧ ssMiss.length = 1 + 1 := by
  have h := repo_summary_record_appended envMiss "u" ssMiss 1 ⟨1, 1, 2⟩ (by rfl) (by rfl)
  have h2 := h.2.1 (by rfl)
  exact ⟨h2.1, h2.2.2.2⟩

/-- A file that survives the skip filter but whose `os.stat` raises when
the file is later processed (for instance it disappeared between the walk
and the analysis). -/
def crashingFile : SrcFile :=
  { relpath := "gone.txt", parts := ["repo", "gone.txt"], mime := "text/plain",
    getsizeRes := some 10, statRes := .error "stat failed", content := "" }

/-- A cache-miss environment in which the first analyzed file fails and a
healthy text file follows it. -/
def envCrash : Env :=
  { md5hex := fun _ => "k", cache := fun _ => .absent, cloned := true,
    files := [crashingFile, shortFile], model := mOk }

/-- C1, evaluated at the failing input.  `get_file_summary` does capture
the per-file failure into the record's `error` field, but the loop in
`analyze_repository` then evaluates `summary['is_text']` on that two-key
record, raising a `KeyError` that the outer handler re-raises: the whole
analysis aborts instead of continuing with the remaining files. -/
theorem per_file_failure_aborts_batch :
    (get_file_summary mOk crashingFile).1
      = [("path", PyVal.vStr "gone.txt"), ("error", PyVal.vStr "stat failed")]
    ∧ (analyze_repository envCrash "u").1 = Except.error "KeyError: is_text" := by
  exact ⟨rfl, rfl⟩

end GitAnalyzer

